import Mathlib

/-!
# ParkWise state-synchronization pipeline: a shallow embedding

This file embeds the core of the ParkWise carpark pipeline
(`Lambda_APIs/carpark_availability_rates/carpark_avail_rates_util.py`,
`Lambda_APIs/data_pipelines_join/ingest_hdb_carpark_info.py`,
`Lambda_APIs/data_pipelines_join/ingest_ev_locations.py`) as pure Lean
functions over explicit table states, and proves the spec's testable
properties about them.

Modelling conventions:
* SQLite tables are lists of row structures; TEXT columns that may be
  NULL are `Option String`, REAL columns are `Option Rat` (only decimal
  literals are ever stored or compared, so `Rat` is exact), INTEGER
  columns are `Int` or `Option Int`.
* SQL `NULL` comparison semantics are preserved where they matter: the
  history table's UNIQUE index treats NULL `update_datetime` values as
  pairwise distinct, exactly as SQLite does.
* Timestamps are TEXT and compared lexicographically (SQLite binary
  collation on TEXT), modelled by `String` with its linear order.
* The `int(...)` parsing of JSON payload values is abstracted: feed
  observations arrive with their numeric fields already typed, and the
  key fields `carpark_number` / `lot_type` are taken as present.
-/

namespace ParkWise

/-- Whitespace as stripped by Python `str.strip()` / SQL `TRIM`. -/
def isSpaceChar (c : Char) : Bool :=
  c = ' ' || c = '\t' || c = '\n' || c = '\r' || c = '\x0b' || c = '\x0c'

/-- `str.strip()` / `TRIM(x)`: drop whitespace from both ends. (The
string operations are written over the character list so that concrete
instances evaluate by kernel reduction.) -/
def strTrim (s : String) : String :=
  ⟨((s.data.dropWhile isSpaceChar).reverse.dropWhile isSpaceChar).reverse⟩

/-- `str.upper()` / `UPPER(x)`. -/
def strUpper (s : String) : String :=
  ⟨s.data.map Char.toUpper⟩

/-- SQL `UPPER(TRIM(x))` / Python `.strip().upper()` normalization of a
facility key. -/
def normCp (s : String) : String := strUpper (strTrim s)

/-- Lexicographic `<` on character lists: SQLite's ordering of TEXT
values under the default (binary) collation. -/
def charListLt : List Char → List Char → Bool
  | _, [] => false
  | [], _ :: _ => true
  | a :: as, b :: bs => a < b || (a = b && charListLt as bs)

/-- SQLite TEXT comparison `x < y` (binary collation). -/
def strLtB (a b : String) : Bool := charListLt a.data b.data

/-- The binary maximum of two TEXT values under SQLite's ordering. -/
def strMaxB (a b : String) : String := if strLtB a b then b else a

/-- Python `a or b` on two optional strings, where `None` and `""` are
falsy (used for `rec.get("car_park_no") or rec.get("carpark_number") or ""`). -/
def pyOrStr (a b : Option String) : String :=
  match a with
  | some s => if s = "" then b.getD "" else s
  | none => b.getD ""

/-- One accumulation step of the SQL `MAX` aggregate over nullable TEXT:
NULLs are ignored. -/
def sqlMaxStep (acc x : Option String) : Option String :=
  match acc, x with
  | none, x => x
  | acc, none => acc
  | some a, some b => some (strMaxB a b)

/-- The SQL `MAX` aggregate over a column of nullable TEXT values: NULLs
are ignored; the maximum of an empty or all-NULL column is NULL. -/
def sqlMax (l : List (Option String)) : Option String :=
  l.foldl sqlMaxStep none

/-- First `some` value of a list of options (`none` if there is none);
used to state the fill-once semantics of `total_lots`. -/
def firstSome (l : List (Option Int)) : Option Int :=
  l.foldr (fun x acc => x.or acc) none

/-! ## Data model: table rows -/

/-- A row of `carpark_availability` (the current-state snapshot table).
Primary key `(carpark_number, lot_type)`. -/
structure AvailRow where
  carpark_number : String
  lot_type : String
  lots_available : Int
  total_lots : Option Int
  update_datetime : Option String
  last_seen_at : String
  deriving DecidableEq, Repr

/-- A row of `carpark_availability_history` (append-only), minus the
surrogate AUTOINCREMENT id. The table carries a UNIQUE index on
`(carpark_number, lot_type, update_datetime)`. -/
structure HistRow where
  carpark_number : String
  lot_type : String
  lots_available : Int
  update_datetime : Option String
  retrieved_at : String
  deriving DecidableEq, Repr

/-! ## Snapshot store: `upsert_snapshot` and its legacy fallback -/

/-- Key match for the snapshot table's primary key. -/
def availKeyIs (cp lt : String) (r : AvailRow) : Bool :=
  r.carpark_number = cp && r.lot_type = lt

/-- The fast path of `upsert_snapshot`: a single
`INSERT ... ON CONFLICT(carpark_number, lot_type) DO UPDATE SET`
statement. On conflict it overwrites `lots_available`,
`update_datetime`, `last_seen_at` and sets
`total_lots = COALESCE(carpark_availability.total_lots, excluded.total_lots)`. -/
def upsert_snapshot (t : List AvailRow) (cp lt : String) (lots : Int)
    (total : Option Int) (upd : Option String) (seen : String) : List AvailRow :=
  if t.any (availKeyIs cp lt) then
    t.map (fun r =>
      if availKeyIs cp lt r then
        { r with
          lots_available := lots
          total_lots := r.total_lots.or total
          update_datetime := upd
          last_seen_at := seen }
      else r)
  else
    t ++ [{ carpark_number := cp, lot_type := lt, lots_available := lots,
            total_lots := total, update_datetime := upd, last_seen_at := seen }]

/-- The legacy fallback of `upsert_snapshot`: an `UPDATE` setting
`lots_available`, `total_lots = CASE WHEN total_lots IS NULL THEN ? ELSE
total_lots END`, `update_datetime`, `last_seen_at` on the keyed row,
followed by a plain `INSERT` when the `UPDATE` touched zero rows. -/
def legacy_upsert_snapshot (t : List AvailRow) (cp lt : String) (lots : Int)
    (total : Option Int) (upd : Option String) (seen : String) : List AvailRow :=
  let updated := t.map (fun r =>
    if availKeyIs cp lt r then
      { r with
        lots_available := lots
        total_lots := match r.total_lots with | none => total | some v => some v
        update_datetime := upd
        last_seen_at := seen }
    else r)
  if t.countP (availKeyIs cp lt) = 0 then
    updated ++ [{ carpark_number := cp, lot_type := lt, lots_available := lots,
                  total_lots := total, update_datetime := upd, last_seen_at := seen }]
  else updated

/-! ## Metadata store, joined view, payloads -/

/-- A row of `carpark_info`. The static attribute columns are nullable
TEXT; the trailing pricing columns (added by `add_col`) are nullable and
owned by the pricing job. -/
structure InfoRow where
  carpark_number : String
  address : Option String
  x_coord : Option String
  y_coord : Option String
  car_park_type : Option String
  type_of_parking_system : Option String
  short_term_parking : Option String
  free_parking : Option String
  night_parking : Option String
  car_park_decks : Option String
  gantry_height : Option String
  car_park_basement : Option String
  updated_at : Option String
  is_central : Option Int
  carpark_rate : Option Rat
  current_rate_30min : Option Rat
  active_cap_type : Option String
  active_cap_amount : Option Rat
  rate_updated_at : Option String
  deriving DecidableEq, Repr

/-- A row of `carpark_availability_join` (the denormalized view).
Attribute and pricing columns are NULL when the LEFT JOIN found no
`carpark_info` match. -/
structure ViewRow where
  carpark_number : String
  lot_type : String
  lots_available : Int
  total_lots : Option Int
  update_datetime : Option String
  address : Option String
  x_coord : Option String
  y_coord : Option String
  car_park_type : Option String
  type_of_parking_system : Option String
  short_term_parking : Option String
  free_parking : Option String
  night_parking : Option String
  car_park_decks : Option String
  gantry_height : Option String
  car_park_basement : Option String
  carpark_rate : Option Rat
  current_rate_30min : Option Rat
  active_cap_type : Option String
  active_cap_amount : Option Rat
  ev_lot_location : Option String
  has_info : Int
  deriving DecidableEq, Repr

/-- One record pulled from the metadata feed (`fetch_info_records`): the
key may sit under `car_park_no` or `carpark_number`; attribute values
are read with `rec.get(col, "")` and taken as strings. -/
structure MetaRecord where
  car_park_no : Option String
  carpark_number : Option String
  address : String
  x_coord : String
  y_coord : String
  car_park_type : String
  type_of_parking_system : String
  short_term_parking : String
  free_parking : String
  night_parking : String
  car_park_decks : String
  gantry_height : String
  car_park_basement : String
  deriving DecidableEq, Repr

/-- One `carpark_info` element of an availability-feed carpark entry. -/
structure LotInfo where
  lot_type : String
  lots_available : Int
  total_lots : Option Int
  deriving DecidableEq, Repr

/-- One `carpark_data` element of the availability feed. -/
structure Carpark where
  carpark_number : String
  update_datetime : Option String
  carpark_info : List LotInfo
  deriving DecidableEq, Repr

/-- One element of the payload's `items` list. -/
structure PayloadItem where
  carpark_data : Option (List Carpark)
  deriving DecidableEq, Repr

/-- The availability feed payload: `items` may be missing. -/
structure Payload where
  items : Option (List PayloadItem)
  deriving DecidableEq, Repr

/-- `items = payload.get("items", []); carparks = items[0].get("carpark_data", []) if items else []`. -/
def carparksOf (p : Payload) : List Carpark :=
  match p.items.getD [] with
  | [] => []
  | it :: _ => it.carpark_data.getD []

/-- Arguments supplied by one call of `upsert_snapshot` against a fixed
`(carpark_number, lot_type)` key. -/
structure UpsertArgs where
  lots : Int
  total : Option Int
  upd : Option String
  seen : String
  deriving DecidableEq, Repr

/-- A sequence of `upsert_snapshot` calls against one fixed key. -/
def runUpserts (t : List AvailRow) (cp lt : String) (seq : List UpsertArgs) :
    List AvailRow :=
  seq.foldl (fun acc a => upsert_snapshot acc cp lt a.lots a.total a.upd a.seen) t

/-- The row-level effect of one conflicting upsert on the stored row. -/
def applyUpsert (row : AvailRow) (a : UpsertArgs) : AvailRow :=
  { row with
    lots_available := a.lots
    total_lots := row.total_lots.or a.total
    update_datetime := a.upd
    last_seen_at := a.seen }

/-- The row inserted by an upsert that found no existing row. -/
def freshRow (cp lt : String) (a : UpsertArgs) : AvailRow :=
  { carpark_number := cp, lot_type := lt, lots_available := a.lots,
    total_lots := a.total, update_datetime := a.upd, last_seen_at := a.seen }

/-! ## History, ingestion cycle -/

/-- `INSERT OR IGNORE` into `carpark_availability_history`, which
carries a UNIQUE index on `(carpark_number, lot_type, update_datetime)`.
SQLite treats NULL values in a UNIQUE index as pairwise distinct, so a
row with NULL `update_datetime` always inserts; a fully non-null key
inserts only if absent. Returns the new table and the changed-row count
(`cur.rowcount` contribution to `history_inserts`). -/
def appendHistory (h : List HistRow) (cp lt : String) (lots : Int)
    (upd : Option String) (retrieved : String) : List HistRow × Nat :=
  let row : HistRow := { carpark_number := cp, lot_type := lt, lots_available := lots,
                         update_datetime := upd, retrieved_at := retrieved }
  match upd with
  | none => (h ++ [row], 1)
  | some u =>
    if h.any (fun r => r.carpark_number = cp && r.lot_type = lt && r.update_datetime = some u)
    then (h, 0)
    else (h ++ [row], 1)

/-- The embedded store: the four tables of `ops.sqlite` that the
pipeline mutates. -/
structure Store where
  avail : List AvailRow
  hist : List HistRow
  info : List InfoRow
  view : List ViewRow
  deriving DecidableEq, Repr

/-- The body of `upsert`'s loop for one `carpark_info` element:
`upsert_snapshot` into the mirror then `INSERT OR IGNORE` into history,
both stamped with the cycle's `retrieved_at`. -/
def ingestLot (ts cpn : String) (updc : Option String) (s : Store) (li : LotInfo) : Store :=
  { s with
    avail := upsert_snapshot s.avail cpn li.lot_type li.lots_available li.total_lots updc ts
    hist := (appendHistory s.hist cpn li.lot_type li.lots_available updc ts).1 }

/-- The body of `upsert`'s loop for one carpark entry. -/
def ingestCarpark (ts : String) (st : Store) (cp : Carpark) : Store :=
  cp.carpark_info.foldl (ingestLot ts cp.carpark_number cp.update_datetime) st

/-- The `upsert` ingestion cycle: process every observation of the
payload's batch, then, when strict-mirror is enabled, run
`DELETE FROM carpark_availability WHERE last_seen_at < retrieved_at`. -/
def upsertRun (strict : Bool) (st : Store) (p : Payload) (ts : String) : Store :=
  let st1 := (carparksOf p).foldl (ingestCarpark ts) st
  if strict then
    { st1 with avail := st1.avail.filter (fun r => !(strLtB r.last_seen_at ts)) }
  else st1

/-- The `(carpark_number, lot_type)` pairs observed in a payload's batch. -/
def observedKeys (p : Payload) : List (String × String) :=
  (carparksOf p).flatMap (fun cp => cp.carpark_info.map (fun li => (cp.carpark_number, li.lot_type)))

/-! ## Pricing engine -/

/-- Python truthiness of the `is_central` column (`1 if is_central else 0`):
NULL and 0 are falsy. -/
def isCentralTruthy (v : Option Int) : Bool :=
  match v with
  | some n => n != 0
  | none => false

/-- The enumerated central allow-list of `mark_central_and_base_rates`. -/
def CENTRAL : List String :=
  ["ACB", "BBB", "BRB1", "CY", "DUXM", "HLM", "KAB", "KAM", "KAS", "PRM",
   "SLS", "SR1", "SR2", "TPM", "UCS", "WCB"]

/-- `mark_central_and_base_rates`: first set `is_central` to 1/0 by
allow-list membership for every row, then set
`carpark_rate = CASE WHEN is_central = 1 THEN 1.2 ELSE 0.6 END`. -/
def mark_central_and_base_rates (info : List InfoRow) : List InfoRow :=
  let tagged := info.map (fun i =>
    { i with is_central := some (if CENTRAL.contains i.carpark_number then 1 else 0) })
  tagged.map (fun i =>
    { i with carpark_rate := some (if i.is_central = some 1 then (1.2 : Rat) else 0.6) })

/-- `(night_parking or "").strip().upper().startswith("YES")`. -/
def npsOf (night_parking : Option String) : Bool :=
  "YES".data.isPrefixOf (strUpper (strTrim (night_parking.getD ""))).data

/-- The per-row body of `refresh_time_dependent_rates`, at civil time
(weekday `wk`, Mon = 0; hour `hh`; minute `mm`), writing
`current_rate_30min`, the cap fields and `rate_updated_at = now`. -/
def refreshRateRow (wk hh mm : Nat) (now : String) (i : InfoRow) : InfoRow :=
  let is_central := isCentralTruthy i.is_central
  let nps := npsOf i.night_parking
  let in_night := (hh > 22 || (hh == 22 && mm ≥ 30)) || hh < 7
  let in_day := (hh > 7 || (hh == 7 && mm ≥ 0)) && (hh < 22 || (hh == 22 && mm < 30))
  let current_rate : Rat := if is_central && wk ≤ 5 && (7 ≤ hh && hh < 17) then 1.2 else 0.6
  let cap : Option String × Option Rat :=
    if nps && in_night then (some "NPS_NIGHT_CAP", some (5.0 : Rat))
    else if in_day then (some "DAY_CAP", some (if is_central then (20.0 : Rat) else 12.0))
    else (none, none)
  { i with
    current_rate_30min := some current_rate
    active_cap_type := cap.1
    active_cap_amount := cap.2
    rate_updated_at := some now }

/-- `refresh_time_dependent_rates`: the time-window pass over every row
of `carpark_info` (each row is updated by key, and keys are the table's
primary key). -/
def refresh_time_dependent_rates (wk hh mm : Nat) (now : String)
    (info : List InfoRow) : List InfoRow :=
  info.map (refreshRateRow wk hh mm now)

/-! ## Metadata ingestion -/

/-- The `carpark_info` row inserted by `load_info_into_sqlite` for a
record with normalized key `cp`: static attribute columns only; the
pricing columns are not in the INSERT's column list and come out NULL. -/
def infoRowOf (cp : String) (rec : MetaRecord) (now : String) : InfoRow :=
  { carpark_number := cp, address := some rec.address, x_coord := some rec.x_coord,
    y_coord := some rec.y_coord, car_park_type := some rec.car_park_type,
    type_of_parking_system := some rec.type_of_parking_system,
    short_term_parking := some rec.short_term_parking,
    free_parking := some rec.free_parking, night_parking := some rec.night_parking,
    car_park_decks := some rec.car_park_decks, gantry_height := some rec.gantry_height,
    car_park_basement := some rec.car_park_basement, updated_at := some now,
    is_central := none, carpark_rate := none, current_rate_30min := none,
    active_cap_type := none, active_cap_amount := none, rate_updated_at := none }

/-- One record of `load_info_into_sqlite`'s insert loop: skip records
with an empty normalized key; a duplicate key violates the table's
PRIMARY KEY, raising (`none`, which aborts the replace). -/
def loadInfoStep (now : String) (acc : Option (List InfoRow)) (rec : MetaRecord) :
    Option (List InfoRow) :=
  match acc with
  | none => none
  | some tbl =>
    let cp := normCp (pyOrStr rec.car_park_no rec.carpark_number)
    if cp = "" then some tbl
    else if tbl.any (fun i => i.carpark_number = cp) then none
    else some (tbl ++ [infoRowOf cp rec now])

/-- `load_info_into_sqlite`: `DELETE FROM carpark_info`, then insert one
row per record whose normalized key is non-empty. A raised insert rolls
the whole replace back (`none` — the old table stays); on success the
new table replaces the old wholesale. -/
def load_info_into_sqlite (records : List MetaRecord) (now : String) :
    Option (List InfoRow) :=
  records.foldl (loadInfoStep now) (some [])

/-! ## Join materializer -/

/-- The LEFT JOIN probe `ON UPPER(TRIM(a.carpark_number)) = i.carpark_number`
(`carpark_info.carpark_number` is the primary key, so at most one row
matches). -/
def lookupInfo (info : List InfoRow) (key : String) : Option InfoRow :=
  info.find? (fun i => i.carpark_number = key)

/-- One row produced by `rebuild_join_snapshot`'s INSERT..SELECT: the
availability row left-joined to `carpark_info`, copying attributes and
pricing, with `has_info` by join hit; `ev_lot_location` is not in the
column list and starts NULL. -/
def joinRow (info : List InfoRow) (a : AvailRow) : ViewRow :=
  match lookupInfo info (normCp a.carpark_number) with
  | some i =>
    { carpark_number := a.carpark_number, lot_type := a.lot_type,
      lots_available := a.lots_available, total_lots := a.total_lots,
      update_datetime := a.update_datetime, address := i.address,
      x_coord := i.x_coord, y_coord := i.y_coord,
      car_park_type := i.car_park_type,
      type_of_parking_system := i.type_of_parking_system,
      short_term_parking := i.short_term_parking, free_parking := i.free_parking,
      night_parking := i.night_parking, car_park_decks := i.car_park_decks,
      gantry_height := i.gantry_height, car_park_basement := i.car_park_basement,
      carpark_rate := i.carpark_rate, current_rate_30min := i.current_rate_30min,
      active_cap_type := i.active_cap_type, active_cap_amount := i.active_cap_amount,
      ev_lot_location := none, has_info := 1 }
  | none =>
    { carpark_number := a.carpark_number, lot_type := a.lot_type,
      lots_available := a.lots_available, total_lots := a.total_lots,
      update_datetime := a.update_datetime, address := none, x_coord := none,
      y_coord := none, car_park_type := none, type_of_parking_system := none,
      short_term_parking := none, free_parking := none, night_parking := none,
      car_park_decks := none, gantry_height := none, car_park_basement := none,
      carpark_rate := none, current_rate_30min := none, active_cap_type := none,
      active_cap_amount := none, ev_lot_location := none, has_info := 0 }

/-- The `_ev_cache` lookup for one view row: the SQL scalar subquery over
`SELECT carpark_number, MAX(ev_lot_location) ... GROUP BY carpark_number`
of the pre-rebuild view. Both "no group" and "group whose MAX is NULL"
come out NULL. -/
def evCacheLookup (view : List ViewRow) (cp : String) : Option String :=
  sqlMax ((view.filter (fun r => r.carpark_number = cp)).map (·.ev_lot_location))

/-- `rebuild_join_snapshot` (availability/pricing driver): snapshot the
carry-forward cache, delete the view, reinsert from the LEFT JOIN, then
`SET ev_lot_location = COALESCE((SELECT ... FROM _ev_cache ...), ev_lot_location)`
on every new row. -/
def rebuild_join_snapshot (avail : List AvailRow) (info : List InfoRow)
    (view : List ViewRow) : List ViewRow :=
  let inserted := avail.map (joinRow info)
  inserted.map (fun r =>
    { r with ev_lot_location := (evCacheLookup view r.carpark_number).or r.ev_lot_location })

/-- One row produced by `rebuild_join_table`'s INSERT..SELECT
(`ingest_hdb_carpark_info.py`): its column list carries the static
attributes, `has_info` and `total_lots` only — neither the pricing
columns nor `ev_lot_location` — so those come out NULL. -/
def joinRowMeta (info : List InfoRow) (a : AvailRow) : ViewRow :=
  { joinRow info a with
    carpark_rate := none, current_rate_30min := none,
    active_cap_type := none, active_cap_amount := none }

/-- `rebuild_join_table` (metadata driver): delete the view and reinsert
from the LEFT JOIN. There is no carry-forward cache step. -/
def rebuild_join_table (avail : List AvailRow) (info : List InfoRow) : List ViewRow :=
  avail.map (joinRowMeta info)

/-! ## EV overlay merge -/

/-- `ev_lot_location IS NULL OR TRIM(ev_lot_location) = ''`. -/
def isBlankEv (s : Option String) : Bool :=
  match s with
  | none => true
  | some t => strTrim t = ""

/-- Phase one of `_apply_ev_mapping` on one row:
`SET ev_lot_location = default_text WHERE ev_lot_location IS NULL OR TRIM(ev_lot_location) = ''`. -/
def evDefaultRow (default_text : String) (r : ViewRow) : ViewRow :=
  if isBlankEv r.ev_lot_location then { r with ev_lot_location := some default_text } else r

/-- One mapping entry of `_apply_ev_mapping` applied to one row:
`SET ev_lot_location = ? WHERE UPPER(TRIM(carpark_number)) = ?`. -/
def evMapStep (r : ViewRow) (kv : String × String) : ViewRow :=
  if normCp r.carpark_number = kv.1 then { r with ev_lot_location := some kv.2 } else r

/-- `_apply_ev_mapping`: first set `ev_lot_location = default_text`
wherever NULL/blank, then apply each mapping entry in order, overwriting
every row whose normalized key equals the entry's key. (The Python dict
is a list of key/value pairs with distinct keys; distinctness is not
needed for the theorems below.) -/
def apply_ev_mapping (mapping : List (String × String)) (default_text : String)
    (view : List ViewRow) : List ViewRow :=
  let defaulted := view.map (evDefaultRow default_text)
  mapping.foldl (fun v kv => v.map (fun r => evMapStep r kv)) defaulted

/-! ## The pipeline's operations on the shared store -/

/-- One invocation of any pipeline job that mutates the shared store. -/
inductive Op where
  | availCycle (strict : Bool) (p : Payload) (ts : String)
  | markRates
  | refreshRates (wk hh mm : Nat) (now : String)
  | metaLoad (records : List MetaRecord) (now : String)
  | metaJoinRebuild
  | snapshotJoinRebuild
  | evMerge (mapping : List (String × String)) (default_text : String)
  deriving DecidableEq, Repr

/-- The state transition of one pipeline operation. A failed metadata
replace rolls back, leaving the store unchanged. -/
def applyOp (st : Store) : Op → Store
  | .availCycle strict p ts => upsertRun strict st p ts
  | .markRates => { st with info := mark_central_and_base_rates st.info }
  | .refreshRates wk hh mm now =>
    { st with info := refresh_time_dependent_rates wk hh mm now st.info }
  | .metaLoad records now =>
    match load_info_into_sqlite records now with
    | some tbl => { st with info := tbl }
    | none => st
  | .metaJoinRebuild => { st with view := rebuild_join_table st.avail st.info }
  | .snapshotJoinRebuild =>
    { st with view := rebuild_join_snapshot st.avail st.info st.view }
  | .evMerge mapping default_text =>
    { st with view := apply_ev_mapping mapping default_text st.view }

/-- The store reachable from freshly created (empty) tables by a
sequence of pipeline operations. -/
def runOps (ops : List Op) : Store :=
  ops.foldl applyOp ⟨[], [], [], []⟩

/-- The spec's history-uniqueness invariant, read literally: no two
history rows agree on all of `(facility_id, category, source_update_time)`. -/
def histKeyUniqueClaim (h : List HistRow) : Prop :=
  h.Pairwise (fun a b =>
    ¬(a.carpark_number = b.carpark_number ∧ a.lot_type = b.lot_type ∧
      a.update_datetime = b.update_datetime))

/-- History uniqueness as the UNIQUE index actually enforces it: rows
with a non-null `update_datetime` never repeat a full key. -/
def histKeyUniqueNonNull (h : List HistRow) : Prop :=
  h.Pairwise (fun a b =>
    a.update_datetime ≠ none →
    ¬(a.carpark_number = b.carpark_number ∧ a.lot_type = b.lot_type ∧
      a.update_datetime = b.update_datetime))

/-! ## Spec-side time windows (for the pricing claim) -/

/-- The night window 22:30–07:00 (wrapping midnight) exactly as the
spec phrases it, in minutes since midnight; stated independently of the
code's hour/minute comparisons so the pricing claim compares the two. -/
def specNightWindow (hh mm : Nat) : Bool :=
  60 * hh + mm ≥ 22 * 60 + 30 || 60 * hh + mm < 7 * 60

/-- The day window 07:00–22:30 exactly as the spec phrases it, in
minutes since midnight. -/
def specDayWindow (hh mm : Nat) : Bool :=
  7 * 60 ≤ 60 * hh + mm && 60 * hh + mm < 22 * 60 + 30

/-- A concrete central facility with night service, for instantiating
the pricing theorem at the spec's test vectors. -/
def centralNpsRow : InfoRow :=
  { carpark_number := "ACB", address := some "addr", x_coord := some "0",
    y_coord := some "0", car_park_type := some "MULTI-STOREY CAR PARK",
    type_of_parking_system := some "ELECTRONIC PARKING",
    short_term_parking := some "WHOLE DAY", free_parking := some "NO",
    night_parking := some "YES", car_park_decks := some "5",
    gantry_height := some "2.15", car_park_basement := some "N",
    updated_at := some "T0", is_central := some 1, carpark_rate := some 1.2,
    current_rate_30min := none, active_cap_type := none,
    active_cap_amount := none, rate_updated_at := none }

/-- A concrete one-observation payload (carpark "A", lot type "C",
5 lots available, no `update_datetime`, no `total_lots`), for witnesses
and counterexamples. -/
def pX : Payload := ⟨some [⟨some [⟨"A", none, [⟨"C", 5, none⟩]⟩]⟩]⟩

/-- A concrete view row for facility "A" with no `ev_lot_location`, for
witnesses and counterexamples. -/
def vRowA : ViewRow :=
  ⟨"A", "C", 3, none, none, none, none, none, none, none, none, none, none,
   none, none, none, none, none, none, none, none, 0⟩

/-- A concrete metadata-feed record for facility "A". -/
def recA : MetaRecord :=
  ⟨some "A", none, "addr", "x", "y", "t", "s", "whole day", "no", "YES",
   "5", "2.15", "N"⟩

/-- A concrete `carpark_info` row for facility "A" whose pricing fields
have been populated by the pricing job. -/
def infoA : InfoRow :=
  { carpark_number := "A", address := some "addr", x_coord := some "x",
    y_coord := some "y", car_park_type := some "t",
    type_of_parking_system := some "s", short_term_parking := some "whole day",
    free_parking := some "no", night_parking := some "YES",
    car_park_decks := some "5", gantry_height := some "2.15",
    car_park_basement := some "N", updated_at := some "T0",
    is_central := some 1, carpark_rate := some 1.2,
    current_rate_30min := some 1.2, active_cap_type := some "DAY_CAP",
    active_cap_amount := some 20.0, rate_updated_at := some "T0" }

section UpsertLemmas

variable {t : List AvailRow} {cp lt : String}

theorem map_id_of_no_key (h : ∀ r ∈ t, availKeyIs cp lt r = false)
    (f : AvailRow → AvailRow) :
    (t.map fun r => if availKeyIs cp lt r then f r else r) = t := by
  induction t with
  | nil => rfl
  | cons x xs ih =>
    have hx := h x (List.mem_cons_self _ _)
    simp only [List.map_cons]
    rw [if_neg (by simp [hx]), ih (fun r hr => h r (List.mem_cons_of_mem _ hr))]

theorem upsert_absent (h : ∀ r ∈ t, availKeyIs cp lt r = false) (a : UpsertArgs) :
    upsert_snapshot t cp lt a.lots a.total a.upd a.seen = t ++ [freshRow cp lt a] := by
  unfold upsert_snapshot
  rw [if_neg]
  · rfl
  · simp only [List.any_eq_true, not_exists, not_and]
    intro r hr
    simp [h r hr]

theorem upsert_present (h : ∀ r ∈ t, availKeyIs cp lt r = false)
    {row : AvailRow} (hkey : availKeyIs cp lt row = true) (a : UpsertArgs) :
    upsert_snapshot (t ++ [row]) cp lt a.lots a.total a.upd a.seen =
      t ++ [applyUpsert row a] := by
  unfold upsert_snapshot
  rw [if_pos]
  · rw [List.map_append]
    congr 1
    · exact map_id_of_no_key h _
    · simp [hkey, applyUpsert]
  · simp only [List.any_eq_true]
    exact ⟨row, by simp, hkey⟩

theorem applyUpsert_key (row : AvailRow) (a : UpsertArgs) :
    availKeyIs cp lt (applyUpsert row a) = availKeyIs cp lt row := rfl

theorem runUpserts_from_row (h : ∀ r ∈ t, availKeyIs cp lt r = false)
    (seq : List UpsertArgs) :
    ∀ row : AvailRow, availKeyIs cp lt row = true →
      runUpserts (t ++ [row]) cp lt seq = t ++ [seq.foldl applyUpsert row] := by
  induction seq with
  | nil => intro row _; rfl
  | cons a rest ih =>
    intro row hkey
    show runUpserts (upsert_snapshot (t ++ [row]) cp lt a.lots a.total a.upd a.seen)
        cp lt rest = _
    rw [upsert_present h hkey a, ih (applyUpsert row a) (by rw [applyUpsert_key]; exact hkey)]
    rfl

theorem foldl_applyUpsert_total (seq : List UpsertArgs) :
    ∀ row : AvailRow,
      (seq.foldl applyUpsert row).total_lots =
        row.total_lots.or (firstSome (seq.map (·.total))) := by
  induction seq with
  | nil => intro row; simp [firstSome]
  | cons a rest ih =>
    intro row
    show (rest.foldl applyUpsert (applyUpsert row a)).total_lots = _
    rw [ih]
    show (row.total_lots.or a.total).or _ = row.total_lots.or (firstSome (a.total :: rest.map (·.total)))
    rw [Option.or_assoc]
    rfl

theorem foldl_applyUpsert_last (seq : List UpsertArgs) :
    ∀ row : AvailRow, ∀ last : UpsertArgs, seq.getLast? = some last →
      (seq.foldl applyUpsert row).lots_available = last.lots ∧
      (seq.foldl applyUpsert row).update_datetime = last.upd ∧
      (seq.foldl applyUpsert row).last_seen_at = last.seen := by
  induction seq with
  | nil => intro row last h; simp at h
  | cons a rest ih =>
    intro row last h
    match rest, ih with
    | [], _ =>
      simp only [List.getLast?_singleton, Option.some_inj] at h
      subst h
      exact ⟨rfl, rfl, rfl⟩
    | b :: rest', ih =>
      have h' : (b :: rest').getLast? = some last := by
        rwa [List.getLast?_cons_cons] at h
      exact ih (applyUpsert row a) last h'

theorem foldl_applyUpsert_keyfields (seq : List UpsertArgs) :
    ∀ row : AvailRow,
      (seq.foldl applyUpsert row).carpark_number = row.carpark_number ∧
      (seq.foldl applyUpsert row).lot_type = row.lot_type := by
  induction seq with
  | nil => intro row; exact ⟨rfl, rfl⟩
  | cons a rest ih => intro row; exact ih (applyUpsert row a)

theorem find_append_right {p : AvailRow → Bool} (h : ∀ r ∈ t, p r = false)
    (l : List AvailRow) : (t ++ l).find? p = l.find? p := by
  induction t with
  | nil => rfl
  | cons x xs ih =>
    have hx := h x (List.mem_cons_self _ _)
    simp only [List.cons_append, List.find?_cons, hx]
    exact ih (fun r hr => h r (List.mem_cons_of_mem _ hr))

end UpsertLemmas

/-- **C3**: for every sequence of snapshot upserts to the same
`(facility_id, category)` key starting from a table with no row at that
key, the stored `total_lots` after the sequence is the first non-null
`total_lots` value supplied in the sequence (null if none ever was),
while `lots_available`, `update_datetime` and `last_seen_at` equal the
values supplied by the last upsert. -/
theorem C3_total_count_fill_once (t : List AvailRow) (cp lt : String)
    (seq : List UpsertArgs) (habs : ∀ r ∈ t, availKeyIs cp lt r = false)
    (last : UpsertArgs) (hlast : seq.getLast? = some last) :
    ∃ row : AvailRow,
      (runUpserts t cp lt seq).find? (availKeyIs cp lt) = some row ∧
      row.total_lots = firstSome (seq.map (·.total)) ∧
      row.lots_available = last.lots ∧
      row.update_datetime = last.upd ∧
      row.last_seen_at = last.seen := by
  match seq, hlast with
  | a :: rest, hlast =>
    have hstep : runUpserts t cp lt (a :: rest) =
        runUpserts (t ++ [freshRow cp lt a]) cp lt rest := by
      show runUpserts (upsert_snapshot t cp lt a.lots a.total a.upd a.seen) cp lt rest = _
      rw [upsert_absent habs a]
    have hkey : availKeyIs cp lt (freshRow cp lt a) = true := by
      simp [availKeyIs, freshRow]
    rw [hstep, runUpserts_from_row habs rest (freshRow cp lt a) hkey]
    refine ⟨rest.foldl applyUpsert (freshRow cp lt a), ?_, ?_, ?_⟩
    · rw [find_append_right habs]
      have hk : availKeyIs cp lt (rest.foldl applyUpsert (freshRow cp lt a)) = true := by
        have hf := foldl_applyUpsert_keyfields rest (freshRow cp lt a)
        unfold availKeyIs
        rw [hf.1, hf.2]
        simp [freshRow]
      simp [List.find?, hk]
    · rw [foldl_applyUpsert_total]
      show (a.total).or (firstSome (rest.map (·.total))) = firstSome ((a :: rest).map (·.total))
      rfl
    · match rest with
      | [] =>
        simp only [List.getLast?_singleton, Option.some_inj] at hlast
        subst hlast
        exact ⟨rfl, rfl, rfl⟩
      | b :: rest' =>
        have h' : (b :: rest').getLast? = some last := by
          rwa [List.getLast?_cons_cons] at hlast
        exact foldl_applyUpsert_last (b :: rest') (freshRow cp lt a) last h'

/-- Witness for **C3** at a concrete three-upsert sequence: the second
upsert is the first to supply a non-null `total_lots` (100), which then
survives the third upsert's null; the mutable fields track the last
upsert. -/
theorem C3_total_count_fill_once_witness :
    ∃ row : AvailRow,
      (runUpserts [] "A" "C"
        [⟨5, none, some "U1", "T1"⟩, ⟨7, some 100, none, "T2"⟩,
         ⟨9, none, some "U3", "T3"⟩]).find? (availKeyIs "A" "C") = some row ∧
      row.total_lots = firstSome
        ([⟨5, none, some "U1", "T1"⟩, ⟨7, some 100, none, "T2"⟩,
          (⟨9, none, some "U3", "T3"⟩ : UpsertArgs)].map (·.total)) ∧
      row.lots_available = (9 : Int) ∧
      row.update_datetime = some "U3" ∧
      row.last_seen_at = "T3" :=
  C3_total_count_fill_once [] "A" "C"
    [⟨5, none, some "U1", "T1"⟩, ⟨7, some 100, none, "T2"⟩, ⟨9, none, some "U3", "T3"⟩]
    (by intro r hr; simp at hr) ⟨9, none, some "U3", "T3"⟩ (by rfl)

/-- **C9**: the legacy read-then-write upsert fallback is behaviourally
equivalent to the atomic `ON CONFLICT` upsert: for every snapshot-table
state and every single observation, both paths leave the table in
exactly the same state. -/
theorem C9_legacy_upsert_equivalent (t : List AvailRow) (cp lt : String)
    (lots : Int) (total : Option Int) (upd : Option String) (seen : String) :
    legacy_upsert_snapshot t cp lt lots total upd seen =
      upsert_snapshot t cp lt lots total upd seen := by
  unfold legacy_upsert_snapshot upsert_snapshot
  have hmaps : (t.map fun r =>
      if availKeyIs cp lt r then
        { r with
          lots_available := lots
          total_lots := match r.total_lots with | none => total | some v => some v
          update_datetime := upd
          last_seen_at := seen }
      else r) = t.map fun r =>
      if availKeyIs cp lt r then
        { r with
          lots_available := lots
          total_lots := r.total_lots.or total
          update_datetime := upd
          last_seen_at := seen }
      else r := by
    apply List.map_congr_left
    intro r _
    cases hto : r.total_lots <;> simp [Option.or, hto]
  by_cases h : t.any (availKeyIs cp lt) = true
  · have hcount : ¬ t.countP (availKeyIs cp lt) = 0 := by
      simp only [List.any_eq_true] at h
      obtain ⟨r, hr, hkey⟩ := h
      have : 0 < t.countP (availKeyIs cp lt) := List.countP_pos_iff.mpr ⟨r, hr, hkey⟩
      omega
    rw [if_neg hcount, if_pos h]
    exact hmaps
  · have hcount : t.countP (availKeyIs cp lt) = 0 := by
      simp only [List.any_eq_true] at h
      apply List.countP_eq_zero.mpr
      intro r hr
      simp only [Bool.not_eq_true]
      by_contra hk
      exact h ⟨r, hr, by revert hk; cases availKeyIs cp lt r <;> simp⟩
    rw [if_pos hcount, if_neg h, hmaps]
    congr 1
    have hnone : ∀ r ∈ t, availKeyIs cp lt r = false := by
      intro r hr
      by_contra hk
      simp only [List.any_eq_true] at h
      exact h ⟨r, hr, by revert hk; cases availKeyIs cp lt r <;> simp⟩
    exact map_id_of_no_key hnone _

/-! ## Pricing: the code's windows equal the spec's windows -/

theorem in_night_matches (hh mm : Nat) (hmm : mm < 60) :
    ((hh > 22 || (hh == 22 && mm ≥ 30)) || hh < 7) = specNightWindow hh mm := by
  rw [Bool.eq_iff_iff]
  simp only [specNightWindow, Bool.or_eq_true, Bool.and_eq_true, decide_eq_true_eq,
    beq_iff_eq, ge_iff_le]
  omega

theorem in_day_matches (hh mm : Nat) (hmm : mm < 60) :
    ((hh > 7 || (hh == 7 && mm ≥ 0)) && (hh < 22 || (hh == 22 && mm < 30))) =
      specDayWindow hh mm := by
  rw [Bool.eq_iff_iff]
  simp only [specDayWindow, Bool.or_eq_true, Bool.and_eq_true, decide_eq_true_eq,
    beq_iff_eq, ge_iff_le]
  omega

/-- **C4**: the time-window pricing pass writes
`current_rate_30min = 1.2` exactly when the facility is central, the
weekday is Monday–Saturday and 7 ≤ hh < 17 (else 0.6); and writes the
cap pair `(NPS_NIGHT_CAP, 5.0)` when the facility supports night
service and the time lies in the night window 22:30–07:00, else
`(DAY_CAP, 20.0/12.0)` in the day window 07:00–22:30, else both NULL. -/
theorem C4_time_window_pricing (i : InfoRow) (wk hh mm : Nat) (now : String)
    (hmm : mm < 60) :
    (refreshRateRow wk hh mm now i).current_rate_30min =
      some (if isCentralTruthy i.is_central ∧ wk ≤ 5 ∧ 7 ≤ hh ∧ hh < 17
            then (1.2 : Rat) else 0.6) ∧
    ((refreshRateRow wk hh mm now i).active_cap_type,
      (refreshRateRow wk hh mm now i).active_cap_amount) =
      (if npsOf i.night_parking ∧ specNightWindow hh mm
       then (some "NPS_NIGHT_CAP", some (5.0 : Rat))
       else if specDayWindow hh mm
       then (some "DAY_CAP", some (if isCentralTruthy i.is_central then (20.0 : Rat) else 12.0))
       else (none, none)) := by
  unfold refreshRateRow
  rw [in_night_matches hh mm hmm, in_day_matches hh mm hmm]
  constructor
  · by_cases hP : isCentralTruthy i.is_central ∧ wk ≤ 5 ∧ 7 ≤ hh ∧ hh < 17
    · have hb : (isCentralTruthy i.is_central && decide (wk ≤ 5) &&
          (decide (7 ≤ hh) && decide (hh < 17))) = true := by
        simp only [Bool.and_eq_true, decide_eq_true_eq]
        tauto
      rw [if_pos hP]
      simp [hb]
    · have hb : (isCentralTruthy i.is_central && decide (wk ≤ 5) &&
          (decide (7 ≤ hh) && decide (hh < 17))) = false :=
        Bool.eq_false_iff.mpr (by
          simp only [ne_eq, Bool.and_eq_true, decide_eq_true_eq]
          tauto)
      rw [if_neg hP]
      simp [hb]
  · by_cases hN : npsOf i.night_parking ∧ specNightWindow hh mm
    · rw [if_pos hN]
      simp [hN.1, hN.2]
    · have hb : (npsOf i.night_parking && specNightWindow hh mm) = false :=
        Bool.eq_false_iff.mpr (by
          simp only [ne_eq, Bool.and_eq_true]
          exact fun h => hN ⟨h.1, h.2⟩)
      rw [if_neg hN]
      by_cases hD : specDayWindow hh mm = true
      · rw [if_pos hD]
        simp [hb, hD]
      · have hd : specDayWindow hh mm = false := by
          revert hD
          cases specDayWindow hh mm <;> simp
        rw [if_neg hD]
        simp [hb, hd]

/-- Witness for **C4** at the spec's two test vectors: a central
facility with night service on a Wednesday (`wk = 2`) at 10:00 and at
23:00. -/
theorem C4_time_window_pricing_witness :
    ((refreshRateRow 2 10 0 "now" centralNpsRow).current_rate_30min =
        some (if isCentralTruthy centralNpsRow.is_central ∧ 2 ≤ 5 ∧ 7 ≤ 10 ∧ 10 < 17
              then (1.2 : Rat) else 0.6) ∧
      ((refreshRateRow 2 10 0 "now" centralNpsRow).active_cap_type,
        (refreshRateRow 2 10 0 "now" centralNpsRow).active_cap_amount) =
        (if npsOf centralNpsRow.night_parking ∧ specNightWindow 10 0
         then (some "NPS_NIGHT_CAP", some (5.0 : Rat))
         else if specDayWindow 10 0
         then (some "DAY_CAP",
               some (if isCentralTruthy centralNpsRow.is_central then (20.0 : Rat) else 12.0))
         else (none, none))) ∧
    ((refreshRateRow 2 23 0 "now" centralNpsRow).current_rate_30min =
        some (if isCentralTruthy centralNpsRow.is_central ∧ 2 ≤ 5 ∧ 7 ≤ 23 ∧ 23 < 17
              then (1.2 : Rat) else 0.6) ∧
      ((refreshRateRow 2 23 0 "now" centralNpsRow).active_cap_type,
        (refreshRateRow 2 23 0 "now" centralNpsRow).active_cap_amount) =
        (if npsOf centralNpsRow.night_parking ∧ specNightWindow 23 0
         then (some "NPS_NIGHT_CAP", some (5.0 : Rat))
         else if specDayWindow 23 0
         then (some "DAY_CAP",
               some (if isCentralTruthy centralNpsRow.is_central then (20.0 : Rat) else 12.0))
         else (none, none))) :=
  ⟨C4_time_window_pricing centralNpsRow 2 10 0 "now" (by decide),
   C4_time_window_pricing centralNpsRow 2 23 0 "now" (by decide)⟩

/-! ## Strict-mirror cycle lemmas -/

theorem charListLt_irrefl : ∀ l : List Char, charListLt l l = false := by
  intro l
  induction l with
  | nil => rfl
  | cons a as ih => simp [charListLt, ih, lt_irrefl]

theorem strLtB_irrefl (s : String) : strLtB s s = false :=
  charListLt_irrefl s.data

section CycleLemmas

variable {ts : String}

theorem mem_upsert_seen {t : List AvailRow} {cp lt : String} {lots : Int}
    {total : Option Int} {upd : Option String} {seen : String} {r' : AvailRow}
    (h : r' ∈ upsert_snapshot t cp lt lots total upd seen) :
    r'.last_seen_at = seen ∨ (r' ∈ t ∧ availKeyIs cp lt r' = false) := by
  unfold upsert_snapshot at h
  by_cases ha : t.any (availKeyIs cp lt) = true
  · rw [if_pos ha] at h
    obtain ⟨r, hr, heq⟩ := List.mem_map.mp h
    by_cases hk : availKeyIs cp lt r = true
    · left
      rw [if_pos hk] at heq
      rw [← heq]
    · have hk' : availKeyIs cp lt r = false := Bool.eq_false_iff.mpr hk
      right
      rw [if_neg hk] at heq
      rw [← heq]
      exact ⟨hr, hk'⟩
  · rw [if_neg ha] at h
    rcases List.mem_append.mp h with h1 | h2
    · right
      refine ⟨h1, ?_⟩
      by_contra hb
      exact ha (List.any_eq_true.mpr ⟨r', h1,
        by revert hb; cases availKeyIs cp lt r' <;> simp⟩)
    · left
      rw [List.mem_singleton.mp h2]

theorem upsert_has_keyseen (t : List AvailRow) (cp lt : String) (lots : Int)
    (total : Option Int) (upd : Option String) (seen : String) :
    ∃ r' ∈ upsert_snapshot t cp lt lots total upd seen,
      availKeyIs cp lt r' = true ∧ r'.last_seen_at = seen := by
  unfold upsert_snapshot
  by_cases ha : t.any (availKeyIs cp lt) = true
  · rw [if_pos ha]
    obtain ⟨r, hr, hk⟩ := List.any_eq_true.mp ha
    refine ⟨_, List.mem_map_of_mem _ hr, ?_⟩
    rw [if_pos hk]
    exact ⟨hk, rfl⟩
  · rw [if_neg ha]
    refine ⟨_, List.mem_append_right _ (List.mem_singleton_self _), ?_, rfl⟩
    simp [availKeyIs]

theorem upsert_keeps_keyseen {t : List AvailRow} {cp lt : String} {lots : Int}
    {total : Option Int} {upd : Option String} {seen : String} {k1 k2 : String}
    {r : AvailRow} (hr : r ∈ t) (hk : availKeyIs k1 k2 r = true)
    (hs : r.last_seen_at = seen) :
    ∃ r' ∈ upsert_snapshot t cp lt lots total upd seen,
      availKeyIs k1 k2 r' = true ∧ r'.last_seen_at = seen := by
  unfold upsert_snapshot
  by_cases ha : t.any (availKeyIs cp lt) = true
  · rw [if_pos ha]
    refine ⟨_, List.mem_map_of_mem _ hr, ?_⟩
    by_cases hck : availKeyIs cp lt r = true
    · rw [if_pos hck]
      exact ⟨hk, rfl⟩
    · rw [if_neg hck]
      exact ⟨hk, hs⟩
  · rw [if_neg ha]
    exact ⟨r, List.mem_append_left _ hr, hk, hs⟩

theorem mem_upsert_other_key {t : List AvailRow} {cp lt : String} {lots : Int}
    {total : Option Int} {upd : Option String} {seen : String} {k1 k2 : String}
    {r' : AvailRow} (h : r' ∈ upsert_snapshot t cp lt lots total upd seen)
    (hk : availKeyIs k1 k2 r' = true) (hne : ¬(cp = k1 ∧ lt = k2)) : r' ∈ t := by
  unfold upsert_snapshot at h
  by_cases ha : t.any (availKeyIs cp lt) = true
  · rw [if_pos ha] at h
    obtain ⟨r, hr, heq⟩ := List.mem_map.mp h
    by_cases hck : availKeyIs cp lt r = true
    · exfalso
      rw [if_pos hck] at heq
      apply hne
      have hkr : availKeyIs k1 k2 r = true := by rw [← heq] at hk; exact hk
      simp only [availKeyIs, Bool.and_eq_true, decide_eq_true_eq] at hck hkr
      exact ⟨hkr.1 ▸ hck.1.symm, hkr.2 ▸ hck.2.symm⟩
    · rw [if_neg hck] at heq
      rw [← heq]
      exact hr
  · rw [if_neg ha] at h
    rcases List.mem_append.mp h with h1 | h2
    · exact h1
    · exfalso
      apply hne
      rw [List.mem_singleton.mp h2] at hk
      simp only [availKeyIs, Bool.and_eq_true, decide_eq_true_eq] at hk
      exact ⟨hk.1, hk.2⟩

theorem mem_ingestLots {cpn : String} {updc : Option String} :
    ∀ (lis : List LotInfo) (st : Store) (r' : AvailRow),
      r' ∈ ((lis.foldl (ingestLot ts cpn updc) st).avail) →
      r'.last_seen_at = ts ∨ r' ∈ st.avail := by
  intro lis
  induction lis with
  | nil => intro st r' h; exact Or.inr h
  | cons li rest ih =>
    intro st r' h
    rcases ih _ _ h with h1 | h2
    · exact Or.inl h1
    · simp only [ingestLot] at h2
      rcases mem_upsert_seen h2 with h3 | h4
      · exact Or.inl h3
      · exact Or.inr h4.1

theorem mem_foldCarparks :
    ∀ (cs : List Carpark) (st : Store) (r' : AvailRow),
      r' ∈ ((cs.foldl (ingestCarpark ts) st).avail) →
      r'.last_seen_at = ts ∨ r' ∈ st.avail := by
  intro cs
  induction cs with
  | nil => intro st r' h; exact Or.inr h
  | cons c rest ih =>
    intro st r' h
    rcases ih _ _ h with h1 | h2
    · exact Or.inl h1
    · exact mem_ingestLots c.carpark_info st r' h2

theorem key_after_ingestLots {cpn : String} {updc : Option String} {k1 k2 : String} :
    ∀ (lis : List LotInfo) (st : Store),
      ((∃ li ∈ lis, cpn = k1 ∧ li.lot_type = k2) ∨
        (∃ r ∈ st.avail, availKeyIs k1 k2 r = true ∧ r.last_seen_at = ts)) →
      ∃ r' ∈ ((lis.foldl (ingestLot ts cpn updc) st).avail),
        availKeyIs k1 k2 r' = true ∧ r'.last_seen_at = ts := by
  intro lis
  induction lis with
  | nil =>
    intro st h
    rcases h with ⟨li, hli, _⟩ | h
    · exact absurd hli (List.not_mem_nil li)
    · exact h
  | cons li rest ih =>
    intro st h
    apply ih
    rcases h with ⟨li', hmem, hcp, hlt⟩ | hex
    · rcases List.mem_cons.mp hmem with heq | hmem'
      · right
        subst heq
        subst hcp
        subst hlt
        show ∃ r' ∈ upsert_snapshot st.avail cpn li'.lot_type
            li'.lots_available li'.total_lots updc ts,
          availKeyIs cpn li'.lot_type r' = true ∧ r'.last_seen_at = ts
        exact upsert_has_keyseen st.avail cpn li'.lot_type
          li'.lots_available li'.total_lots updc ts
      · exact Or.inl ⟨li', hmem', hcp, hlt⟩
    · right
      obtain ⟨r, hr, hk, hs⟩ := hex
      show ∃ r' ∈ upsert_snapshot st.avail cpn li.lot_type
          li.lots_available li.total_lots updc ts,
        availKeyIs k1 k2 r' = true ∧ r'.last_seen_at = ts
      exact upsert_keeps_keyseen hr hk hs

theorem key_after_foldCarparks {k1 k2 : String} :
    ∀ (cs : List Carpark) (st : Store),
      ((∃ c ∈ cs, ∃ li ∈ c.carpark_info, c.carpark_number = k1 ∧ li.lot_type = k2) ∨
        (∃ r ∈ st.avail, availKeyIs k1 k2 r = true ∧ r.last_seen_at = ts)) →
      ∃ r' ∈ ((cs.foldl (ingestCarpark ts) st).avail),
        availKeyIs k1 k2 r' = true ∧ r'.last_seen_at = ts := by
  intro cs
  induction cs with
  | nil =>
    intro st h
    rcases h with ⟨c, hc, _⟩ | h
    · exact absurd hc (List.not_mem_nil c)
    · exact h
  | cons c rest ih =>
    intro st h
    apply ih
    rcases h with ⟨c', hmem, hobs⟩ | hex
    · rcases List.mem_cons.mp hmem with heq | hmem'
      · right
        subst heq
        exact key_after_ingestLots c'.carpark_info st (Or.inl hobs)
      · exact Or.inl ⟨c', hmem', hobs⟩
    · right
      exact key_after_ingestLots c.carpark_info st (Or.inr hex)

theorem untouched_ingestLots {cpn : String} {updc : Option String} {k1 k2 : String} :
    ∀ (lis : List LotInfo) (st : Store) (r' : AvailRow),
      (¬ ∃ li ∈ lis, cpn = k1 ∧ li.lot_type = k2) →
      r' ∈ ((lis.foldl (ingestLot ts cpn updc) st).avail) →
      availKeyIs k1 k2 r' = true → r' ∈ st.avail := by
  intro lis
  induction lis with
  | nil => intro st r' _ h _; exact h
  | cons li rest ih =>
    intro st r' hno h hk
    have hrest : ¬ ∃ li' ∈ rest, cpn = k1 ∧ li'.lot_type = k2 := by
      intro ⟨li', hm, hp⟩
      exact hno ⟨li', List.mem_cons_of_mem _ hm, hp⟩
    have h2 := ih _ _ hrest h hk
    simp only [ingestLot] at h2
    refine mem_upsert_other_key h2 hk ?_
    intro ⟨hcp, hlt⟩
    exact hno ⟨li, List.mem_cons_self _ _, hcp, hlt⟩

theorem untouched_foldCarparks {k1 k2 : String} :
    ∀ (cs : List Carpark) (st : Store) (r' : AvailRow),
      (¬ ∃ c ∈ cs, ∃ li ∈ c.carpark_info, c.carpark_number = k1 ∧ li.lot_type = k2) →
      r' ∈ ((cs.foldl (ingestCarpark ts) st).avail) →
      availKeyIs k1 k2 r' = true → r' ∈ st.avail := by
  intro cs
  induction cs with
  | nil => intro st r' _ h _; exact h
  | cons c rest ih =>
    intro st r' hno h hk
    have hrest : ¬ ∃ c' ∈ rest, ∃ li ∈ c'.carpark_info, c'.carpark_number = k1 ∧ li.lot_type = k2 := by
      intro ⟨c', hm, hp⟩
      exact hno ⟨c', List.mem_cons_of_mem _ hm, hp⟩
    have h2 := ih _ _ hrest h hk
    refine untouched_ingestLots c.carpark_info st r' ?_ h2 hk
    intro ⟨li, hm, hp⟩
    exact hno ⟨c, List.mem_cons_self _ _, li, hm, hp⟩

theorem observedKeys_iff (p : Payload) (k1 k2 : String) :
    (k1, k2) ∈ observedKeys p ↔
      ∃ c ∈ carparksOf p, ∃ li ∈ c.carpark_info, c.carpark_number = k1 ∧ li.lot_type = k2 := by
  unfold observedKeys
  simp only [List.mem_flatMap, List.mem_map]
  constructor
  · rintro ⟨c, hc, li, hli, heq⟩
    exact ⟨c, hc, li, hli, congrArg Prod.fst heq, congrArg Prod.snd heq⟩
  · rintro ⟨c, hc, li, hli, h1, h2⟩
    exact ⟨c, hc, li, hli, by rw [h1, h2]⟩

end CycleLemmas

/-- **C5**: after a strict-mirror availability cycle whose timestamp is
fresh (later than every stored `last_seen_at`), every remaining
snapshot row carries `last_seen_at = ts`, every key observed in the
batch is present, and every remaining row's key was observed in the
batch (rows not re-observed are gone). -/
theorem C5_strict_mirror_cycle (st : Store) (p : Payload) (ts : String)
    (hfresh : ∀ r ∈ st.avail, strLtB r.last_seen_at ts = true) :
    (∀ r ∈ (upsertRun true st p ts).avail, r.last_seen_at = ts) ∧
    (∀ k ∈ observedKeys p, ∃ r ∈ (upsertRun true st p ts).avail,
        availKeyIs k.1 k.2 r = true) ∧
    (∀ r ∈ (upsertRun true st p ts).avail,
        (r.carpark_number, r.lot_type) ∈ observedKeys p) := by
  have hrun : (upsertRun true st p ts).avail =
      ((carparksOf p).foldl (ingestCarpark ts) st).avail.filter
        (fun r => !(strLtB r.last_seen_at ts)) := rfl
  refine ⟨?_, ?_, ?_⟩
  · intro r hr
    rw [hrun] at hr
    obtain ⟨hmem, hcond⟩ := List.mem_filter.mp hr
    rcases mem_foldCarparks _ _ _ hmem with h1 | h2
    · exact h1
    · exfalso
      rw [hfresh r h2] at hcond
      simp at hcond
  · intro k hk
    obtain ⟨c, hc, li, hli, h1, h2⟩ := (observedKeys_iff p k.1 k.2).mp (by simpa using hk)
    obtain ⟨r', hr', hkey, hseen⟩ :=
      key_after_foldCarparks (carparksOf p) st (Or.inl ⟨c, hc, li, hli, h1, h2⟩)
    refine ⟨r', ?_, hkey⟩
    rw [hrun]
    exact List.mem_filter.mpr ⟨hr', by simp [hseen, strLtB_irrefl]⟩
  · intro r hr
    by_contra hno
    rw [hrun] at hr
    obtain ⟨hmem, hcond⟩ := List.mem_filter.mp hr
    have hkr : availKeyIs r.carpark_number r.lot_type r = true := by simp [availKeyIs]
    have hnoex : ¬ ∃ c ∈ carparksOf p, ∃ li ∈ c.carpark_info,
        c.carpark_number = r.carpark_number ∧ li.lot_type = r.lot_type :=
      fun hex => hno ((observedKeys_iff p r.carpark_number r.lot_type).mpr hex)
    have hin := untouched_foldCarparks (carparksOf p) st r hnoex hmem hkr
    rw [hfresh r hin] at hcond
    simp at hcond

/-- Witness for **C5**: a store holding one stale row (key ("B","C"),
seen "T0") cycled against the one-observation payload `pX` at "T1". -/
theorem C5_strict_mirror_cycle_witness :
    (∀ r ∈ (upsertRun true ⟨[⟨"B", "C", 1, none, none, "T0"⟩], [], [], []⟩ pX "T1").avail,
        r.last_seen_at = "T1") ∧
    (∀ k ∈ observedKeys pX,
        ∃ r ∈ (upsertRun true ⟨[⟨"B", "C", 1, none, none, "T0"⟩], [], [], []⟩ pX "T1").avail,
          availKeyIs k.1 k.2 r = true) ∧
    (∀ r ∈ (upsertRun true ⟨[⟨"B", "C", 1, none, none, "T0"⟩], [], [], []⟩ pX "T1").avail,
        (r.carpark_number, r.lot_type) ∈ observedKeys pX) :=
  C5_strict_mirror_cycle ⟨[⟨"B", "C", 1, none, none, "T0"⟩], [], [], []⟩ pX "T1" (by decide)

/-- **C10**: a strict-mirror cycle over a payload carrying no carpark
observations still runs to completion, empties the current-state
mirror (every pre-existing row's `last_seen_at` precedes the fresh
cycle timestamp, so all are purged), and leaves history untouched. -/
theorem C10_empty_batch_strict_mirror (st : Store) (p : Payload) (ts : String)
    (hempty : carparksOf p = [])
    (hfresh : ∀ r ∈ st.avail, strLtB r.last_seen_at ts = true) :
    (upsertRun true st p ts).avail = [] ∧ (upsertRun true st p ts).hist = st.hist := by
  unfold upsertRun
  rw [hempty]
  constructor
  · show st.avail.filter (fun r => !(strLtB r.last_seen_at ts)) = []
    apply List.filter_eq_nil_iff.mpr
    intro r hr
    rw [hfresh r hr]
    simp
  · rfl

/-- Witness for **C10**: a store with one stale snapshot row and one
history row, cycled at "T1" against a payload whose `items` list is
present but empty. -/
theorem C10_empty_batch_strict_mirror_witness :
    (upsertRun true ⟨[⟨"B", "C", 1, none, none, "T0"⟩], [⟨"H", "C", 2, some "U", "T0"⟩], [], []⟩
        ⟨some []⟩ "T1").avail = [] ∧
    (upsertRun true ⟨[⟨"B", "C", 1, none, none, "T0"⟩], [⟨"H", "C", 2, some "U", "T0"⟩], [], []⟩
        ⟨some []⟩ "T1").hist = [⟨"H", "C", 2, some "U", "T0"⟩] :=
  C10_empty_batch_strict_mirror
    ⟨[⟨"B", "C", 1, none, none, "T0"⟩], [⟨"H", "C", 2, some "U", "T0"⟩], [], []⟩
    ⟨some []⟩ "T1" (by decide) (by decide)

/-! ## History uniqueness -/

theorem appendHistory_unique {h : List HistRow} (cp lt : String) (lots : Int)
    (upd : Option String) (ret : String) (hu : histKeyUniqueNonNull h) :
    histKeyUniqueNonNull (appendHistory h cp lt lots upd ret).1 := by
  unfold appendHistory
  match upd with
  | none =>
    simp only
    refine List.pairwise_append.mpr ⟨hu, List.pairwise_singleton _ _, ?_⟩
    intro a ha b hb hne hmatch
    rw [List.mem_singleton.mp hb] at hmatch
    exact hne (hmatch.2.2)
  | some u =>
    simp only
    by_cases hany : h.any (fun r =>
        r.carpark_number = cp && r.lot_type = lt && r.update_datetime = some u) = true
    · rw [if_pos hany]
      exact hu
    · rw [if_neg hany]
      refine List.pairwise_append.mpr ⟨hu, List.pairwise_singleton _ _, ?_⟩
      intro a ha b hb _ hmatch
      rw [List.mem_singleton.mp hb] at hmatch
      exact hany (List.any_eq_true.mpr ⟨a, ha, by
        simp only [Bool.and_eq_true, decide_eq_true_eq]
        exact ⟨⟨hmatch.1, hmatch.2.1⟩, by rw [hmatch.2.2]⟩⟩)

theorem ingestLots_hist_unique {ts cpn : String} {updc : Option String} :
    ∀ (lis : List LotInfo) (st : Store), histKeyUniqueNonNull st.hist →
      histKeyUniqueNonNull ((lis.foldl (ingestLot ts cpn updc) st).hist) := by
  intro lis
  induction lis with
  | nil => intro st hu; exact hu
  | cons li rest ih =>
    intro st hu
    exact ih _ (appendHistory_unique cpn li.lot_type li.lots_available updc ts hu)

theorem foldCarparks_hist_unique (ts : String) :
    ∀ (cs : List Carpark) (st : Store), histKeyUniqueNonNull st.hist →
      histKeyUniqueNonNull ((cs.foldl (ingestCarpark ts) st).hist) := by
  intro cs
  induction cs with
  | nil => intro st hu; exact hu
  | cons c rest ih =>
    intro st hu
    exact ih _ (ingestLots_hist_unique c.carpark_info st hu)

theorem applyOp_hist_unique (st : Store) (op : Op)
    (hu : histKeyUniqueNonNull st.hist) : histKeyUniqueNonNull (applyOp st op).hist := by
  cases op with
  | availCycle strict p ts =>
    show histKeyUniqueNonNull (upsertRun strict st p ts).hist
    unfold upsertRun
    cases strict
    · exact foldCarparks_hist_unique ts (carparksOf p) st hu
    · exact foldCarparks_hist_unique ts (carparksOf p) st hu
  | markRates => exact hu
  | refreshRates wk hh mm now => exact hu
  | metaLoad records now =>
    simp only [applyOp]
    cases load_info_into_sqlite records now
    · exact hu
    · exact hu
  | metaJoinRebuild => exact hu
  | snapshotJoinRebuild => exact hu
  | evMerge m d => exact hu

/-- **C6 (amended)**: (a) in every store state reachable by pipeline
operations from fresh tables, no two history rows with a **non-null**
`update_datetime` agree on `(carpark_number, lot_type, update_datetime)`
— SQLite's UNIQUE index does not constrain NULL timestamps; (b)
appending an observation whose non-null key already exists inserts
nothing and reports 0; (c) no operation other than the availability
cycle modifies or removes history rows. -/
theorem C6_history_unique_amended :
    (∀ ops : List Op, histKeyUniqueNonNull (runOps ops).hist) ∧
    (∀ (h : List HistRow) (cp lt : String) (lots : Int) (u ret : String),
      h.any (fun r => r.carpark_number = cp && r.lot_type = lt &&
        r.update_datetime = some u) = true →
      appendHistory h cp lt lots (some u) ret = (h, 0)) ∧
    (∀ st : Store,
      (applyOp st .markRates).hist = st.hist ∧
      (∀ wk hh mm now, (applyOp st (.refreshRates wk hh mm now)).hist = st.hist) ∧
      (∀ records now, (applyOp st (.metaLoad records now)).hist = st.hist) ∧
      (applyOp st .metaJoinRebuild).hist = st.hist ∧
      (applyOp st .snapshotJoinRebuild).hist = st.hist ∧
      (∀ m d, (applyOp st (.evMerge m d)).hist = st.hist)) := by
  refine ⟨?_, ?_, ?_⟩
  · intro ops
    have : ∀ st : Store, histKeyUniqueNonNull st.hist →
        histKeyUniqueNonNull (ops.foldl applyOp st).hist := by
      induction ops with
      | nil => intro st hu; exact hu
      | cons op rest ih => intro st hu; exact ih _ (applyOp_hist_unique st op hu)
    exact this ⟨[], [], [], []⟩ (List.Pairwise.nil)
  · intro h cp lt lots u ret hany
    unfold appendHistory
    simp only [if_pos hany]
  · intro st
    refine ⟨rfl, fun _ _ _ _ => rfl, fun records now => ?_, rfl, rfl, fun _ _ => rfl⟩
    show (applyOp st (.metaLoad records now)).hist = st.hist
    simp only [applyOp]
    cases load_info_into_sqlite records now
    · rfl
    · rfl

/-- Witness for **C6 (amended)**: the invariant at a concrete reachable
state; the dedup no-op on a concrete one-row history whose non-null key
recurs; and the history frame on a concrete store. -/
theorem C6_history_unique_amended_witness :
    histKeyUniqueNonNull (runOps [.availCycle true pX "T1"]).hist ∧
    appendHistory [⟨"A", "C", 5, some "U", "T1"⟩] "A" "C" 7 (some "U") "T2" =
      ([⟨"A", "C", 5, some "U", "T1"⟩], 0) ∧
    (applyOp ⟨[], [⟨"A", "C", 5, some "U", "T1"⟩], [], []⟩ .markRates).hist =
      [⟨"A", "C", 5, some "U", "T1"⟩] :=
  ⟨C6_history_unique_amended.1 [.availCycle true pX "T1"],
   C6_history_unique_amended.2.1 [⟨"A", "C", 5, some "U", "T1"⟩] "A" "C" 7 "U" "T2" (by decide),
   (C6_history_unique_amended.2.2 ⟨[], [⟨"A", "C", 5, some "U", "T1"⟩], [], []⟩).1⟩

/-- **C6 counterexample**: the claim's unconditional uniqueness fails —
two cycles observing the same carpark with a missing (NULL)
`update_datetime` leave two history rows with identical
`(facility_id, category, source_update_time)`, because SQLite's UNIQUE
index treats NULLs as pairwise distinct. -/
theorem C6_history_unique_counterexample :
    ¬ histKeyUniqueClaim (runOps [.availCycle true pX "T1", .availCycle true pX "T2"]).hist := by
  intro h
  have he : (runOps [.availCycle true pX "T1", .availCycle true pX "T2"]).hist =
      [⟨"A", "C", 5, none, "T1"⟩, ⟨"A", "C", 5, none, "T2"⟩] := by decide
  rw [he] at h
  unfold histKeyUniqueClaim at h
  exact (List.pairwise_cons.mp h).1 ⟨"A", "C", 5, none, "T2"⟩ (by simp) ⟨rfl, rfl, rfl⟩

/-! ## Join-materializer idempotence -/

theorem strMaxB_self (s : String) : strMaxB s s = s := by
  unfold strMaxB
  exact ite_self s

theorem sqlMaxStep_none_left (x : Option String) : sqlMaxStep none x = x := by
  cases x <;> rfl

theorem sqlMaxStep_self (e : Option String) : sqlMaxStep e e = e := by
  cases e with
  | none => rfl
  | some s => simp [sqlMaxStep, strMaxB_self]

theorem foldl_sqlMaxStep_const (e : Option String) :
    ∀ l : List (Option String), (∀ x ∈ l, x = e) → List.foldl sqlMaxStep e l = e := by
  intro l
  induction l with
  | nil => intro; rfl
  | cons x rest ih =>
    intro hall
    rw [List.foldl_cons, hall x (List.mem_cons_self _ _), sqlMaxStep_self]
    exact ih (fun y hy => hall y (List.mem_cons_of_mem _ hy))

theorem sqlMax_all_eq (e : Option String) (l : List (Option String)) (hne : l ≠ [])
    (hall : ∀ x ∈ l, x = e) : sqlMax l = e := by
  match l, hne with
  | x :: rest, _ =>
    show List.foldl sqlMaxStep (sqlMaxStep none x) rest = e
    rw [hall x (List.mem_cons_self _ _), sqlMaxStep_none_left]
    exact foldl_sqlMaxStep_const e rest (fun y hy => hall y (List.mem_cons_of_mem _ hy))

theorem joinRow_ev_none (info : List InfoRow) (a : AvailRow) :
    (joinRow info a).ev_lot_location = none := by
  unfold joinRow
  cases lookupInfo info (normCp a.carpark_number) <;> rfl

theorem joinRow_cp (info : List InfoRow) (a : AvailRow) :
    (joinRow info a).carpark_number = a.carpark_number := by
  unfold joinRow
  cases lookupInfo info (normCp a.carpark_number) <;> rfl

theorem evCache_after_rebuild (avail : List AvailRow) (info : List InfoRow)
    (view : List ViewRow) (a : AvailRow) (ha : a ∈ avail) :
    evCacheLookup (rebuild_join_snapshot avail info view) ((joinRow info a).carpark_number) =
      evCacheLookup view ((joinRow info a).carpark_number) := by
  simp only [rebuild_join_snapshot, evCacheLookup]
  rw [List.filter_map, List.map_map]
  apply sqlMax_all_eq
  · intro hnil
    rw [List.map_eq_nil_iff, List.filter_eq_nil_iff] at hnil
    refine hnil (joinRow info a) (List.mem_map_of_mem _ ha) ?_
    simp
  · intro x hx
    obtain ⟨y, hy, hyx⟩ := List.mem_map.mp hx
    obtain ⟨hymem, hycond⟩ := List.mem_filter.mp hy
    obtain ⟨b, hb, rfl⟩ := List.mem_map.mp hymem
    have hbcp : (joinRow info b).carpark_number = (joinRow info a).carpark_number := by
      simpa using hycond
    rw [← hyx]
    show (sqlMax (((view.filter
        (fun r => r.carpark_number = (joinRow info b).carpark_number))).map
          (·.ev_lot_location))).or (joinRow info b).ev_lot_location = _
    rw [joinRow_ev_none, Option.or_none, hbcp]

/-- **C7**: `rebuild_join_snapshot` is idempotent: with no intervening
mutations of the snapshot, metadata or view tables, a second rebuild
reproduces exactly the first rebuild's row set, `ev_lot_location`
carry-forward included. -/
theorem C7_rebuild_join_snapshot_idempotent (avail : List AvailRow)
    (info : List InfoRow) (view : List ViewRow) :
    rebuild_join_snapshot avail info (rebuild_join_snapshot avail info view) =
      rebuild_join_snapshot avail info view := by
  conv_lhs => rw [rebuild_join_snapshot]
  conv_rhs => rw [rebuild_join_snapshot]
  apply List.map_congr_left
  intro r hr
  obtain ⟨a, ha, rfl⟩ := List.mem_map.mp hr
  congr 1
  rw [joinRow_ev_none, Option.or_none, Option.or_none]
  exact evCache_after_rebuild avail info view a ha

/-! ## EV-overlay merge lemmas -/

theorem foldl_map_comm (g : ViewRow → (String × String) → ViewRow) :
    ∀ (mapping : List (String × String)) (v : List ViewRow),
      mapping.foldl (fun v kv => v.map (fun r => g r kv)) v =
        v.map (fun r => mapping.foldl g r) := by
  intro mapping
  induction mapping with
  | nil => intro v; simp
  | cons kv rest ih =>
    intro v
    rw [List.foldl_cons, ih (v.map (fun r => g r kv)), List.map_map]
    rfl

theorem apply_ev_mapping_as_map (mapping : List (String × String))
    (default_text : String) (view : List ViewRow) :
    apply_ev_mapping mapping default_text view =
      view.map (fun r => mapping.foldl evMapStep (evDefaultRow default_text r)) := by
  unfold apply_ev_mapping
  rw [foldl_map_comm, List.map_map]
  rfl

theorem evMapFold_no_match :
    ∀ (mapping : List (String × String)) (r : ViewRow),
      (∀ kv ∈ mapping, normCp r.carpark_number ≠ kv.1) →
      mapping.foldl evMapStep r = r := by
  intro mapping
  induction mapping with
  | nil => intro r _; rfl
  | cons kv rest ih =>
    intro r hno
    rw [List.foldl_cons]
    have hstep : evMapStep r kv = r := by
      unfold evMapStep
      rw [if_neg (hno kv (List.mem_cons_self _ _))]
    rw [hstep]
    exact ih r (fun kv' h => hno kv' (List.mem_cons_of_mem _ h))

theorem evMapFold_shape :
    ∀ (mapping : List (String × String)) (r : ViewRow),
      ∃ y, mapping.foldl evMapStep r = { r with ev_lot_location := y } := by
  intro mapping
  induction mapping with
  | nil => intro r; exact ⟨r.ev_lot_location, rfl⟩
  | cons kv rest ih =>
    intro r
    rw [List.foldl_cons]
    unfold evMapStep
    by_cases hk : normCp r.carpark_number = kv.1
    · rw [if_pos hk]
      obtain ⟨y, hy⟩ := ih { r with ev_lot_location := some kv.2 }
      exact ⟨y, hy⟩
    · rw [if_neg hk]
      exact ih r

theorem evMapFold_ev_irrelevant :
    ∀ (mapping : List (String × String)) (r : ViewRow) (x : Option String),
      (∃ kv ∈ mapping, normCp r.carpark_number = kv.1) →
      mapping.foldl evMapStep { r with ev_lot_location := x } =
        mapping.foldl evMapStep r := by
  intro mapping
  induction mapping with
  | nil =>
    intro r x ⟨kv, hkv, _⟩
    exact absurd hkv (List.not_mem_nil kv)
  | cons kv rest ih =>
    intro r x hex
    rw [List.foldl_cons, List.foldl_cons]
    unfold evMapStep
    by_cases hk : normCp r.carpark_number = kv.1
    · rw [if_pos hk, if_pos hk]
    · rw [if_neg hk, if_neg hk]
      have hrest : ∃ kv' ∈ rest, normCp r.carpark_number = kv'.1 := by
        obtain ⟨kv', hm, hmatch⟩ := hex
        rcases List.mem_cons.mp hm with heq | hm'
        · exact absurd (heq ▸ hmatch) hk
        · exact ⟨kv', hm', hmatch⟩
      exact ih r x hrest

theorem evMapFold_matched_ev :
    ∀ (mapping : List (String × String)) (r : ViewRow),
      (∃ kv ∈ mapping, normCp r.carpark_number = kv.1) →
      ∃ kv ∈ mapping, normCp r.carpark_number = kv.1 ∧
        (mapping.foldl evMapStep r).ev_lot_location = some kv.2 := by
  intro mapping
  induction mapping with
  | nil =>
    intro r ⟨kv, hkv, _⟩
    exact absurd hkv (List.not_mem_nil kv)
  | cons kv rest ih =>
    intro r hex
    rw [List.foldl_cons]
    by_cases hrest : ∃ kv' ∈ rest, normCp r.carpark_number = kv'.1
    · have hkey : normCp (evMapStep r kv).carpark_number = normCp r.carpark_number := by
        unfold evMapStep
        by_cases hk : normCp r.carpark_number = kv.1
        · rw [if_pos hk]
        · rw [if_neg hk]
      obtain ⟨kv', hm, hmatch, hev⟩ := ih (evMapStep r kv) (by
        obtain ⟨kv', hm, hmatch⟩ := hrest
        exact ⟨kv', hm, by rw [hkey]; exact hmatch⟩)
      exact ⟨kv', List.mem_cons_of_mem _ hm, by rw [hkey] at hmatch; exact hmatch, hev⟩
    · have hk : normCp r.carpark_number = kv.1 := by
        obtain ⟨kv', hm, hmatch⟩ := hex
        rcases List.mem_cons.mp hm with heq | hm'
        · exact heq ▸ hmatch
        · exact absurd ⟨kv', hm', hmatch⟩ hrest
      have hstep : evMapStep r kv = { r with ev_lot_location := some kv.2 } := by
        unfold evMapStep
        rw [if_pos hk]
      rw [hstep]
      rw [evMapFold_no_match rest { r with ev_lot_location := some kv.2 } (by
        intro kv' hm' hmatch'
        exact hrest ⟨kv', hm', hmatch'⟩)]
      exact ⟨kv, List.mem_cons_self _ _, hk, rfl⟩

theorem evDefaultRow_idem (d : String) (r : ViewRow) :
    evDefaultRow d (evDefaultRow d r) = evDefaultRow d r := by
  unfold evDefaultRow
  by_cases hb : isBlankEv r.ev_lot_location = true
  · rw [if_pos hb]
    by_cases hb2 : isBlankEv (some d) = true
    · rw [if_pos hb2]
    · rw [if_neg hb2]
  · rw [if_neg hb, if_neg hb]

theorem evDefaultRow_shape (d : String) (r : ViewRow) :
    ∃ y, evDefaultRow d r = { r with ev_lot_location := y } := by
  unfold evDefaultRow
  by_cases hb : isBlankEv r.ev_lot_location = true
  · rw [if_pos hb]
    exact ⟨some d, rfl⟩
  · rw [if_neg hb]
    exact ⟨r.ev_lot_location, rfl⟩

theorem evDefaultRow_nonblank (d : String) (r : ViewRow)
    (h : isBlankEv r.ev_lot_location = false) : evDefaultRow d r = r := by
  simp [evDefaultRow, h]

theorem evRow_idem (mapping : List (String × String)) (d : String) (r : ViewRow) :
    mapping.foldl evMapStep
        (evDefaultRow d (mapping.foldl evMapStep (evDefaultRow d r))) =
      mapping.foldl evMapStep (evDefaultRow d r) := by
  by_cases hex : ∃ kv ∈ mapping, normCp r.carpark_number = kv.1
  · -- a mapping entry matches: the final overwrite wins both times
    obtain ⟨y0, hs⟩ := evDefaultRow_shape d r
    have hexs : ∃ kv ∈ mapping, normCp (evDefaultRow d r).carpark_number = kv.1 := by
      rw [hs]; exact hex
    obtain ⟨y1, h1⟩ := evMapFold_shape mapping (evDefaultRow d r)
    obtain ⟨y2, h2⟩ := evDefaultRow_shape d (mapping.foldl evMapStep (evDefaultRow d r))
    have hexX : ∃ kv ∈ mapping,
        normCp (mapping.foldl evMapStep (evDefaultRow d r)).carpark_number = kv.1 := by
      rw [h1]; exact hexs
    have step1 : mapping.foldl evMapStep
        (evDefaultRow d (mapping.foldl evMapStep (evDefaultRow d r))) =
        mapping.foldl evMapStep (mapping.foldl evMapStep (evDefaultRow d r)) := by
      rw [h2]
      exact evMapFold_ev_irrelevant mapping
        (mapping.foldl evMapStep (evDefaultRow d r)) y2 hexX
    have step2 : mapping.foldl evMapStep
        (mapping.foldl evMapStep (evDefaultRow d r)) =
        mapping.foldl evMapStep (evDefaultRow d r) := by
      conv_lhs => rw [h1]
      exact evMapFold_ev_irrelevant mapping (evDefaultRow d r) y1 hexs
    exact step1.trans step2
  · -- no entry matches: both mapping folds are the identity
    have hnos : ∀ kv ∈ mapping, normCp (evDefaultRow d r).carpark_number ≠ kv.1 := by
      obtain ⟨y0, hs⟩ := evDefaultRow_shape d r
      rw [hs]
      intro kv hm hmatch
      exact hex ⟨kv, hm, hmatch⟩
    rw [evMapFold_no_match mapping _ hnos, evDefaultRow_idem,
      evMapFold_no_match mapping _ hnos]

/-- **C8 (amended)**: the annotation merge is idempotent for every view
state, mapping and default (applying it twice equals applying it once);
and re-running with an empty mapping leaves every annotation unchanged
provided the original run's mapping values are non-blank (which the CSV
loader guarantees: it only keeps non-empty stripped values). A blank
mapping value would be re-defaulted by the rerun, so the proviso is
necessary. -/
theorem C8_annotation_merge_idempotent_amended :
    (∀ (mapping : List (String × String)) (d : String) (view : List ViewRow),
      apply_ev_mapping mapping d (apply_ev_mapping mapping d view) =
        apply_ev_mapping mapping d view) ∧
    (∀ (mapping : List (String × String)) (d : String) (view : List ViewRow),
      (∀ kv ∈ mapping, strTrim kv.2 ≠ "") →
      apply_ev_mapping [] d (apply_ev_mapping mapping d view) =
        apply_ev_mapping mapping d view) := by
  constructor
  · intro mapping d view
    rw [apply_ev_mapping_as_map, apply_ev_mapping_as_map, List.map_map]
    apply List.map_congr_left
    intro r _
    exact evRow_idem mapping d r
  · intro mapping d view hnb
    rw [apply_ev_mapping_as_map, apply_ev_mapping_as_map, List.map_map]
    apply List.map_congr_left
    intro r _
    show List.foldl evMapStep
        (evDefaultRow d (mapping.foldl evMapStep (evDefaultRow d r))) [] =
      mapping.foldl evMapStep (evDefaultRow d r)
    rw [List.foldl_nil]
    by_cases hex : ∃ kv ∈ mapping, normCp (evDefaultRow d r).carpark_number = kv.1
    · obtain ⟨kv, hm, _, hev⟩ := evMapFold_matched_ev mapping (evDefaultRow d r) hex
      apply evDefaultRow_nonblank
      rw [hev]
      simp [isBlankEv, hnb kv hm]
    · rw [evMapFold_no_match mapping _ (fun kv hm hmatch => hex ⟨kv, hm, hmatch⟩)]
      exact evDefaultRow_idem d r

/-- Witness for **C8 (amended)**: idempotence and the empty-mapping
rerun at a concrete one-row view, mapping `{A ↦ "L1"}` (non-blank
value) and default `"None"`. -/
theorem C8_annotation_merge_idempotent_amended_witness :
    apply_ev_mapping [("A", "L1")] "None"
        (apply_ev_mapping [("A", "L1")] "None" [vRowA]) =
      apply_ev_mapping [("A", "L1")] "None" [vRowA] ∧
    apply_ev_mapping [] "None" (apply_ev_mapping [("A", "L1")] "None" [vRowA]) =
      apply_ev_mapping [("A", "L1")] "None" [vRowA] :=
  ⟨C8_annotation_merge_idempotent_amended.1 [("A", "L1")] "None" [vRowA],
   C8_annotation_merge_idempotent_amended.2 [("A", "L1")] "None" [vRowA] (by decide)⟩

/-- **C8 counterexample**: with a present-but-blank mapping value
(`{A ↦ " "}`) and default `"X"`, re-running with an empty mapping does
not leave the view unchanged: the rerun's default pass overwrites the
blank `" "` with `"X"`. -/
theorem C8_annotation_merge_counterexample :
    ¬ (apply_ev_mapping [] "X" (apply_ev_mapping [("A", " ")] "X" [vRowA]) =
        apply_ev_mapping [("A", " ")] "X" [vRowA]) := by
  decide

/-! ## C1: the metadata-driver rebuild drops the annotation column -/

/-- **C1**: evaluated at a view holding annotation "L1" for facility
"A" (whose snapshot row exists), the availability/pricing-driver
rebuild (`rebuild_join_snapshot`) carries the annotation forward, but
the metadata-ingestion-driver rebuild (`rebuild_join_table`) reinserts
the row with `ev_lot_location = NULL` — its INSERT column list omits
the annotation column and it takes no carry-forward cache — so the
non-null annotation is lost, contrary to the claim (and to the schema
comment "curated elsewhere; to be preserved"). -/
theorem C1_metadata_rebuild_drops_annotations :
    (([{ vRowA with ev_lot_location := some "L1" }] : List ViewRow).map
        (·.ev_lot_location) = [some "L1"]) ∧
    ((rebuild_join_table [⟨"A", "C", 3, none, some "U", "T0"⟩] []).map
        (·.carpark_number) = ["A"]) ∧
    ((rebuild_join_table [⟨"A", "C", 3, none, some "U", "T0"⟩] []).map
        (·.ev_lot_location) = [none]) ∧
    ((rebuild_join_snapshot [⟨"A", "C", 3, none, some "U", "T0"⟩] []
        [{ vRowA with ev_lot_location := some "L1" }]).map
        (·.ev_lot_location) = [some "L1"]) := by
  decide

/-! ## C2: the metadata full-replace clears the pricing columns -/

theorem loadInfo_foldl_none (now : String) :
    ∀ recs : List MetaRecord, recs.foldl (loadInfoStep now) none = none := by
  intro recs
  induction recs with
  | nil => rfl
  | cons r rest ih =>
    rw [List.foldl_cons]
    exact ih

theorem loadInfo_pricing_clear_aux (now : String) :
    ∀ (recs : List MetaRecord) (acc : List InfoRow),
      (∀ r ∈ acc, r.is_central = none ∧ r.carpark_rate = none ∧
        r.current_rate_30min = none ∧ r.active_cap_type = none ∧
        r.active_cap_amount = none ∧ r.rate_updated_at = none) →
      ∀ tbl', recs.foldl (loadInfoStep now) (some acc) = some tbl' →
      ∀ r ∈ tbl', r.is_central = none ∧ r.carpark_rate = none ∧
        r.current_rate_30min = none ∧ r.active_cap_type = none ∧
        r.active_cap_amount = none ∧ r.rate_updated_at = none := by
  intro recs
  induction recs with
  | nil =>
    intro acc hacc tbl' heq
    rw [List.foldl_nil] at heq
    cases heq
    exact hacc
  | cons rec rest ih =>
    intro acc hacc tbl' heq
    rw [List.foldl_cons] at heq
    by_cases hcp : normCp (pyOrStr rec.car_park_no rec.carpark_number) = ""
    · have hstep : loadInfoStep now (some acc) rec = some acc := by
        simp only [loadInfoStep]
        rw [if_pos hcp]
      rw [hstep] at heq
      exact ih acc hacc tbl' heq
    · by_cases hany : acc.any
          (fun i => i.carpark_number = normCp (pyOrStr rec.car_park_no rec.carpark_number)) = true
      · have hstep : loadInfoStep now (some acc) rec = none := by
          simp only [loadInfoStep]
          rw [if_neg hcp, if_pos hany]
        rw [hstep, loadInfo_foldl_none] at heq
        cases heq
      · have hstep : loadInfoStep now (some acc) rec =
            some (acc ++ [infoRowOf (normCp (pyOrStr rec.car_park_no rec.carpark_number)) rec now]) := by
          simp only [loadInfoStep]
          rw [if_neg hcp, if_neg hany]
        rw [hstep] at heq
        refine ih _ ?_ tbl' heq
        intro r hr
        rcases List.mem_append.mp hr with h1 | h2
        · exact hacc r h1
        · rw [List.mem_singleton.mp h2]
          exact ⟨rfl, rfl, rfl, rfl, rfl, rfl⟩

/-- **C2 (amended)**: the metadata full-replace inserts static columns
only, so after every successful replace every `carpark_info` row has
all six derived pricing fields NULL — prior pricing values do not
survive the delete-all-and-reinsert and are restored only by the next
pricing pass (the ordering invariant of spec §5). -/
theorem C2_metadata_replace_clears_pricing_amended (records : List MetaRecord)
    (now : String) (tbl' : List InfoRow)
    (h : load_info_into_sqlite records now = some tbl') :
    ∀ r ∈ tbl', r.is_central = none ∧ r.carpark_rate = none ∧
      r.current_rate_30min = none ∧ r.active_cap_type = none ∧
      r.active_cap_amount = none ∧ r.rate_updated_at = none :=
  loadInfo_pricing_clear_aux now records []
    (fun r hr => absurd hr (List.not_mem_nil r)) tbl' h

/-- Witness for **C2 (amended)** at the one-record feed `recA`: the
reloaded row for facility "A" has every pricing field NULL. -/
theorem C2_metadata_replace_clears_pricing_amended_witness :
    (infoRowOf "A" recA "T1").is_central = none ∧
    (infoRowOf "A" recA "T1").carpark_rate = none ∧
    (infoRowOf "A" recA "T1").current_rate_30min = none ∧
    (infoRowOf "A" recA "T1").active_cap_type = none ∧
    (infoRowOf "A" recA "T1").active_cap_amount = none ∧
    (infoRowOf "A" recA "T1").rate_updated_at = none :=
  C2_metadata_replace_clears_pricing_amended [recA] "T1"
    [infoRowOf "A" recA "T1"] (by decide)
    (infoRowOf "A" recA "T1") (List.mem_singleton_self _)

/-- **C2 counterexample**: the claim fails on the code — facility "A"
is present before the replace with `carpark_rate = 1.2` (and the other
pricing fields set) and present after it, but its pricing fields after
the replace are NULL, not their previous values. -/
theorem C2_metadata_replace_counterexample :
    ¬ (∀ tbl', load_info_into_sqlite [recA] "T1" = some tbl' →
        ∀ rOld ∈ [infoA], ∀ rNew ∈ tbl',
          rOld.carpark_number = rNew.carpark_number →
          rNew.is_central = rOld.is_central ∧
          rNew.carpark_rate = rOld.carpark_rate ∧
          rNew.current_rate_30min = rOld.current_rate_30min ∧
          rNew.active_cap_type = rOld.active_cap_type ∧
          rNew.active_cap_amount = rOld.active_cap_amount ∧
          rNew.rate_updated_at = rOld.rate_updated_at) := by
  intro h
  have hload : load_info_into_sqlite [recA] "T1" = some [infoRowOf "A" recA "T1"] := by
    decide
  have hnew := h [infoRowOf "A" recA "T1"] hload infoA (List.mem_singleton_self _)
    (infoRowOf "A" recA "T1") (List.mem_singleton_self _) (by decide)
  have : (infoRowOf "A" recA "T1").active_cap_type = infoA.active_cap_type := hnew.2.2.2.1
  simp [infoRowOf, infoA] at this

end ParkWise
